import Mathlib

/-!
Verification development for the repertorium_la repository.

The Python source is shallowly embedded in Lean 4:
pure numeric code is embedded over the rationals, fallible code
returns Except, and in-place mutation is embedded either as a
functional update or, where aliasing matters, as an explicit store
of bounding boxes indexed by references.
-/

namespace Repertorium

/-! ## Embedding of src/entities/YOLO/BoundigBox.py -/

/-- Python exceptions raised by the bounding-box code:
ValueError from explicit raises, AttributeError from a failed
getattr lookup. -/
inductive PyErr where
  | attributeError (name : String)
  | valueError (msg : String)
deriving Repr, DecidableEq

/-- BoundingBox: four numeric coordinates plus the current format tag.
Coordinates are embedded as rationals; Python floats are idealized as
exact arithmetic, matching the decimal statements of the spec. -/
structure BoundingBox where
  a : ℚ
  b : ℚ
  c : ℚ
  d : ℚ
  current_format : String
deriving Repr, DecidableEq

/-- SUPPORTED_OD_FORMATS from BoundigBox.py. -/
def SUPPORTED_OD_FORMATS : List String := ["yolo", "coco", "pascal"]

/-- BoundingBox.__init__ : validates the format tag, raising ValueError
on an unsupported tag. -/
def mkBoundingBox (a b c d : ℚ) (format : String) : Except PyErr BoundingBox :=
  if format ∈ SUPPORTED_OD_FORMATS then
    .ok ⟨a, b, c, d, format⟩
  else
    .error (.valueError ("Unsupported format " ++ format))

/-- Python round(x, 5): rounding to 5 decimal places.
Mathlib round resolves exact ties upward while Python resolves them
to even; both satisfy the half-unit error bound used below, and exact
ties are the only inputs where they differ. -/
def round5 (q : ℚ) : ℚ := ((round (q * 100000) : ℤ) : ℚ) / 100000

/-- Bounding-box record of a MuRET JSON file, with fromX/fromY/toX/toY
keys. -/
structure MuBox where
  fromX : ℚ
  fromY : ℚ
  toX : ℚ
  toY : ℚ
deriving Repr, DecidableEq

/-- BoundingBox.from_MuRET : builds a pascal-tagged box from the
fromX/fromY/toX/toY fields of a MuRET record. -/
def BoundingBox.from_MuRET (bbox : MuBox) : BoundingBox :=
  ⟨bbox.fromX, bbox.fromY, bbox.toX, bbox.toY, "pascal"⟩

/-- BoundingBox.resize : functional form of the in-place scaling of the
four raw coordinates by a (scale_x, scale_y) pair. -/
def BoundingBox.resize (box : BoundingBox) (scale_factor : ℚ × ℚ) : BoundingBox :=
  ⟨scale_factor.1 * box.a, scale_factor.2 * box.b,
   scale_factor.1 * box.c, scale_factor.2 * box.d, box.current_format⟩

/-- BoundingBox.to_yolo from BoundigBox.py. -/
def BoundingBox.to_yolo (box : BoundingBox) (img_dims : Option (ℚ × ℚ)) :
    Except PyErr BoundingBox :=
  if box.current_format = "yolo" then .ok box
  else
    match img_dims with
    | none => .error (.valueError "Image dimensions are needed to convert to YOLO format.")
    | some (img_width, img_height) =>
      if box.current_format = "pascal" then
        .ok ⟨round5 (((box.a + box.c) / 2) / img_width),
             round5 (((box.b + box.d) / 2) / img_height),
             round5 ((box.c - box.a) / img_width),
             round5 ((box.d - box.b) / img_height), "yolo"⟩
      else -- COCO
        .ok ⟨round5 ((box.a + box.c / 2) / img_width),
             round5 ((box.b + box.d / 2) / img_height),
             round5 (box.c / img_width),
             round5 (box.d / img_height), "yolo"⟩

/-- BoundingBox.to_coco from BoundigBox.py. -/
def BoundingBox.to_coco (box : BoundingBox) (img_dims : Option (ℚ × ℚ)) :
    Except PyErr BoundingBox :=
  if box.current_format = "coco" then .ok box
  else
    if box.current_format = "yolo" then
      match img_dims with
      | none => .error (.valueError "Image dimensions are needed to convert to COCO format from YOLO.")
      | some (img_width, img_height) =>
        .ok ⟨box.a * img_width - (box.c * img_width) / 2,
             box.b * img_height - (box.d * img_height) / 2,
             box.c * img_width,
             box.d * img_height, "coco"⟩
    else -- PASCAL
      .ok ⟨box.a, box.b, box.c - box.a, box.d - box.b, "coco"⟩

/-- BoundingBox.to_pascal from BoundigBox.py. -/
def BoundingBox.to_pascal (box : BoundingBox) (img_dims : Option (ℚ × ℚ)) :
    Except PyErr BoundingBox :=
  if box.current_format = "pascal" then .ok box
  else
    if box.current_format = "yolo" then
      match img_dims with
      | none => .error (.valueError "Image dimensions are needed to convert to PASCAL format from YOLO.")
      | some (img_width, img_height) =>
        .ok ⟨box.a * img_width - (box.c * img_width) / 2,
             box.b * img_height - (box.d * img_height) / 2,
             box.a * img_width - (box.c * img_width) / 2 + box.c * img_width,
             box.b * img_height - (box.d * img_height) / 2 + box.d * img_height, "pascal"⟩
    else -- COCO
      .ok ⟨box.a, box.b, box.a + box.c, box.b + box.d, "pascal"⟩

/-- BoundingBox.to : getattr(self, to_ + format) dispatch. The class
defines exactly the attributes to_yolo, to_coco and to_pascal with that
name shape, so any other format string makes getattr raise
AttributeError before any validation runs. -/
def BoundingBox.to (box : BoundingBox) (format : String) (img_dims : Option (ℚ × ℚ)) :
    Except PyErr BoundingBox :=
  if format = "yolo" then box.to_yolo img_dims
  else if format = "coco" then box.to_coco img_dims
  else if format = "pascal" then box.to_pascal img_dims
  else .error (.attributeError ("to_" ++ format))

/-! ## Embedding of src/entities/MuRET/Dictionary.py -/

/-- MuRETException from src/exceptions/MuRETException.py: an exception
carrying an explanation message. -/
structure MuRETException where
  message : String
deriving Repr, DecidableEq

/-- Lookup in a Python dict modelled as an association list with
insertion order. -/
def invLookup : List (String × ℕ) → String → Option ℕ
  | [], _ => none
  | (k, v) :: rest, x => if x = k then some v else invLookup rest x

/-- Assignment d[k] = v in a Python dict: replaces the value of an
existing key in place, otherwise appends the new key. -/
def invSet (m : List (String × ℕ)) (k : String) (v : ℕ) : List (String × ℕ) :=
  if (invLookup m k).isSome then
    m.map (fun p => if p.1 = k then (k, v) else p)
  else
    m ++ [(k, v)]

/-- Dictionary: the ordered label list plus the inverted label to index
dict. -/
structure Dictionary where
  label_list : List String
  inverted : List (String × ℕ)
deriving Repr, DecidableEq

/-- Dictionary state produced by the constructor before any add. -/
def Dictionary.empty : Dictionary := ⟨[], []⟩

/-- Dictionary.add: if the label is absent it is appended and its index
recorded, computed as in the source by list.index on the updated label
list; present labels leave the dictionary unchanged. -/
def Dictionary.add (d : Dictionary) (label : String) : Dictionary :=
  if label ∈ d.label_list then d
  else
    let new_list := d.label_list ++ [label]
    ⟨new_list, invSet d.inverted label (new_list.indexOf label)⟩

/-- Dictionary.__init__ with a label list: starts empty and adds every
label in order. -/
def Dictionary.ofList (label_list : List String) : Dictionary :=
  label_list.foldl Dictionary.add Dictionary.empty

/-- Dictionary.size. -/
def Dictionary.size (d : Dictionary) : ℕ := d.label_list.length

/-- Dictionary.contains: membership test on the inverted dict. -/
def Dictionary.contains (d : Dictionary) (label : String) : Bool :=
  (invLookup d.inverted label).isSome

/-- Dictionary.index_of: raises MuRETException when the label is not a
key of the inverted dict. -/
def Dictionary.index_of (d : Dictionary) (label : String) : Except MuRETException ℕ :=
  match invLookup d.inverted label with
  | none => .error ⟨"Label not found in dictionary"⟩
  | some i => .ok i

/-- Dictionary.label: raises on a negative index or an index at least
the list length, then returns the stored entry. The None check of the
source is unreachable here because entries of the embedded label list
are strings. -/
def Dictionary.label (d : Dictionary) (index : ℤ) : Except MuRETException String :=
  if index < 0 then .error ⟨"Negative index"⟩
  else if (d.label_list.length : ℤ) ≤ index then .error ⟨"Index too large"⟩
  else .ok (d.label_list.getD index.toNat "")

/-- First-seen deduplication of a list, the shape that Dictionary.add
gives to the label list. -/
def fsAcc (acc : List String) (ls : List String) : List String :=
  ls.foldl (fun acc l => if l ∈ acc then acc else acc ++ [l]) acc

/-! ## Embedding of src/utils/data.py (PartitionManager) -/

/-- Python round(x, 2): rounding to 2 decimal places, used on the sum
of the split fractions. -/
def round2 (q : ℚ) : ℚ := ((round (q * 100) : ℤ) : ℚ) / 100

/-- The splits namespace passed to PartitionManager.partition. -/
structure Splits where
  train : ℚ
  validation : ℚ
  test : ℚ
deriving Repr, DecidableEq

/-- Resolution of one Python slice bound for a list of length n:
negative bounds count from the end, and the result is clamped
into the range 0..n. -/
def pyIdx (n : ℕ) (i : ℤ) : ℕ :=
  if i < 0 then (n + i).toNat else min i.toNat n

/-- Python dataset[i:j]. -/
def pySlice {α : Type} (l : List α) (i j : ℤ) : List α :=
  (l.take (pyIdx l.length j)).drop (pyIdx l.length i)

/-- Python dataset[:j]. -/
def pySliceTo {α : Type} (l : List α) (j : ℤ) : List α :=
  l.take (pyIdx l.length j)

/-- Python dataset[i:]. -/
def pySliceFrom {α : Type} (l : List α) (i : ℤ) : List α :=
  l.drop (pyIdx l.length i)

/-- PartitionManager.partition: validates that the rounded sum of the
three fractions equals 1, then slices the dataset at floor(N train) and
floor(N train) + floor(N validation). -/
def partition {α : Type} (dataset : List α) (splits : Splits) :
    Except MuRETException (List α × List α × List α) :=
  let sum_split := round2 (splits.train + splits.validation + splits.test)
  if sum_split ≠ 1 then
    .error ⟨"The sum of all splits should be 1"⟩
  else
    let idx_split_1 : ℤ := ⌊(dataset.length : ℚ) * splits.train⌋
    let idx_split_2 : ℤ := idx_split_1 + ⌊(dataset.length : ℚ) * splits.validation⌋
    .ok (pySliceTo dataset idx_split_1,
         pySlice dataset idx_split_1 idx_split_2,
         pySliceFrom dataset idx_split_2)

/-! ## Embedding of src/entities/YOLO/Object.py and Image.py -/

/-- Numeric rendering used inside the embedded f-strings. Python renders
floats with decimal digits while Rat uses a num/den form; every claim
settled here concerns only the line and field structure, which does not
depend on the digits of a single rendered number. -/
def numStr (q : ℚ) : String := toString q

/-- Detection object of src/entities/YOLO/Object.py: a class index and
a bounding box. -/
structure Object where
  label : ℕ
  bounding_box : BoundingBox
deriving Repr, DecidableEq

/-- Object.__str__ : the label, a space, then BoundingBox.__str__,
which renders the four numbers separated by single spaces. -/
def objectStr (o : Object) : String :=
  toString o.label ++ " " ++ numStr o.bounding_box.a ++ " " ++ numStr o.bounding_box.b
    ++ " " ++ numStr o.bounding_box.c ++ " " ++ numStr o.bounding_box.d

/-- Object.preprocess as a function on the object value: scales the box
by the ratio of resized to original dimensions, then converts it to the
requested format against the resized dimensions. -/
def objectPreprocess (o : Object) (format : String) (img_dims resized_dims : ℚ × ℚ) :
    Except PyErr Object :=
  let scale_factor := (resized_dims.1 / img_dims.1, resized_dims.2 / img_dims.2)
  let b1 := o.bounding_box.resize scale_factor
  (b1.to format (some resized_dims)).map (fun b2 => ⟨o.label, b2⟩)

/-- Image.__init__ of the YOLO Image: preprocesses every object to yolo
format with the resized dimensions taken from the pixel array. -/
def imageInitObjects (objects : List Object) (img_dims resized_dims : ℚ × ℚ) :
    Except PyErr (List Object) :=
  objects.mapM (fun o => objectPreprocess o "yolo" img_dims resized_dims)

/-- Image.__str__ : one object per line, the lines joined by a single
newline separator. -/
def imageStr (objects : List Object) : String :=
  String.intercalate "\n" (objects.map objectStr)

/-- MuRET2YOLO.__save_image writes str(image) as the whole label text
file. -/
def labelFileContents (objects : List Object) : String := imageStr objects

/-! ## Store model of bounding-box aliasing (Object.preprocess) -/

/-- Region of the MuRET graph with its bounding box held by reference
into a box store, modelling Python object identity. -/
structure RegionRef where
  type : String
  bounding_box : ℕ
deriving Repr, DecidableEq

/-- Detection object holding a bounding-box reference. Built by
MuRET2YOLO from a graph region or page, it receives the reference of
the graph entity itself, not a copy. -/
structure ODObject where
  label : ℕ
  bounding_box : ℕ
deriving Repr, DecidableEq

/-- MuRET2YOLO.__create_object_to_detect_from_region : looks the region
type up in the region dictionary and pairs the class index with the
region's own bounding-box reference. -/
def createObjectToDetectFromRegion (region_types : Dictionary) (region : RegionRef) :
    Except MuRETException ODObject :=
  (region_types.index_of region.type).map (fun i => ⟨i, region.bounding_box⟩)

/-- Fallback box used to read the store at an out-of-range reference. -/
def defaultBox : BoundingBox := ⟨0, 0, 0, 0, "yolo"⟩

/-- Object.preprocess over the box store: resize mutates the referenced
box in place; the to-conversion then returns the very same object when
the box is already in the target format, otherwise a fresh box is
allocated and only the Object field is rebound to it. -/
def preprocessStore (store : List BoundingBox) (obj : ODObject) (format : String)
    (img_dims resized_dims : ℚ × ℚ) : Except PyErr (List BoundingBox × ODObject) :=
  let scale_factor := (resized_dims.1 / img_dims.1, resized_dims.2 / img_dims.2)
  let b1 := (store.getD obj.bounding_box defaultBox).resize scale_factor
  let store1 := store.set obj.bounding_box b1
  if b1.current_format = format then .ok (store1, obj)
  else
    match b1.to format (some resized_dims) with
    | .error e => .error e
    | .ok b2 => .ok (store1 ++ [b2], ⟨obj.label, store1.length⟩)

/-! ## Embedding of src/utils/image.py (RemoteImage cache) -/

/-- Association-list lookup, used for on-disk files and JSON roots. -/
def assocLookup {β : Type} : List (String × β) → String → Option β
  | [], _ => none
  | (k, v) :: rest, x => if x = k then some v else assocLookup rest x

/-- Filesystem and network state seen by RemoteImage: the files on disk
and a pure network oracle giving the content served for a URL, none
standing for a failed download. -/
structure CacheFS where
  disk : List (String × String)
  net : String → Option String

/-- AbstractImage._get_local_filename : the first 13 characters of the
sha256 hexdigest of the URL. The digest function is passed in
abstractly; sha256 itself is outside the embedded code. -/
def getLocalFilename (digestOf : String → String) (url : String) : String :=
  String.mk ((digestOf url).data.take 13)

/-- RemoteImage.__init__ : with no cache folder nothing is fetched;
with one, a cache hit loads from disk with zero downloads, and a miss
downloads once, persisting the content under the hashed name or
raising when the download failed. The second component counts the
network fetch attempts. -/
def remoteImageInit (digestOf : String → String) (cache_files_folder : Option String)
    (fs : CacheFS) (url : String) : CacheFS × ℕ × Except String Unit :=
  match cache_files_folder with
  | none => (fs, 0, .ok ())
  | some folder =>
    let images_cache := folder ++ "/images"
    let file_name := getLocalFilename digestOf url
    let disk_file_name := images_cache ++ "/" ++ file_name
    match assocLookup fs.disk disk_file_name with
    | some _ => (fs, 0, .ok ())
    | none =>
      match fs.net url with
      | some content =>
        ({ fs with disk := fs.disk ++ [(disk_file_name, content)] }, 1, .ok ())
      | none => (fs, 1, .error "Cannot retrieve image")

/-! ## Embedding of src/entities/MuRET/Package.py and the entity files -/

/-- Symbol record of a package JSON file. An Option field stands for
presence of the corresponding key. -/
structure SymbolJson where
  agnostic_symbol_type : String
  position_in_staff : String
  bounding_box : Option MuBox
  approximate_x : Option ℤ
deriving Repr, DecidableEq

/-- Region record of a package JSON file. -/
structure RegionJson where
  type : String
  bounding_box : MuBox
  semantic_encoding : Option String
  symbols : Option (List SymbolJson)
deriving Repr, DecidableEq

/-- Page record of a package JSON file. -/
structure PageJson where
  bounding_box : MuBox
  regions : Option (List RegionJson)
deriving Repr, DecidableEq

/-- One parsed data file of the package, with the required identity
keys. -/
structure FileJson where
  id : String
  url : String
  filename : String
  pages : Option (List PageJson)
deriving Repr, DecidableEq

/-- AgnosticSymbol entity from src/entities/MuRET/AgnosticSymbol.py. -/
structure AgnosticSymbol where
  agnostic_symbol_type : String
  position_in_staff : String
  bounding_box : Option BoundingBox
  approximate_x : Option ℤ
deriving Repr, DecidableEq

/-- Region entity from src/entities/MuRET/Region.py. -/
structure Region where
  type : String
  bounding_box : BoundingBox
  semantic_encoding : Option String
  symbols : List AgnosticSymbol
deriving Repr, DecidableEq

/-- Page entity from src/entities/MuRET/Page.py. -/
structure Page where
  bounding_box : BoundingBox
  regions : List Region
deriving Repr, DecidableEq

/-- Image entity from src/entities/MuRET/Image.py. -/
structure Image where
  ID : String
  url : String
  filename : String
  pages : List Page
deriving Repr, DecidableEq

/-- The three dictionaries held by a Package, threaded through the
loader because read_file mutates them on unknown labels. -/
structure Dicts where
  region_types : Dictionary
  agnostic_symbol_types : Dictionary
  agnostic_positions_in_staff : Dictionary
deriving Repr, DecidableEq

/-- Exceptions escaping Package.read_file: the three unknown-label
MuRETExceptions, each carrying the offending label, and the Python
KeyError raised by the approximate_x slip (see readSymbols). -/
inductive RfError where
  | unknownRegionType (label : String)
  | unknownSymbolType (label : String)
  | unknownPositionInStaff (label : String)
  | keyError
deriving Repr, DecidableEq

/-- Symbol loop of Package.read_file. The source initializes
muret_symbol_approximate_x to None and then, when the approximate_x key
is present, indexes the record with that variable instead of the key
name; indexing a JSON record with None raises KeyError, so any symbol
carrying the key fails the file. On an agnostic type or position absent
from its dictionary the label is first added and an exception is then
raised. -/
def readSymbols (self : Dicts) : List SymbolJson → Dicts × Except RfError (List AgnosticSymbol)
  | [] => (self, .ok [])
  | s :: rest =>
    let bb := s.bounding_box.map BoundingBox.from_MuRET
    if s.approximate_x.isSome then (self, .error .keyError)
    else if self.agnostic_symbol_types.contains s.agnostic_symbol_type = false then
      ({ self with agnostic_symbol_types :=
          self.agnostic_symbol_types.add s.agnostic_symbol_type },
       .error (.unknownSymbolType s.agnostic_symbol_type))
    else if self.agnostic_positions_in_staff.contains s.position_in_staff = false then
      ({ self with agnostic_positions_in_staff :=
          self.agnostic_positions_in_staff.add s.position_in_staff },
       .error (.unknownPositionInStaff s.position_in_staff))
    else
      match readSymbols self rest with
      | (d2, .ok out) => (d2, .ok (⟨s.agnostic_symbol_type, s.position_in_staff, bb, none⟩ :: out))
      | (d2, .error e) => (d2, .error e)

/-- Region loop of Package.read_file: an unknown region type is added
to the dictionary and an exception carrying it is raised. -/
def readRegions (self : Dicts) : List RegionJson → Dicts × Except RfError (List Region)
  | [] => (self, .ok [])
  | r :: rest =>
    if self.region_types.contains r.type = false then
      ({ self with region_types := self.region_types.add r.type },
       .error (.unknownRegionType r.type))
    else
      match readSymbols self (r.symbols.getD []) with
      | (d2, .error e) => (d2, .error e)
      | (d2, .ok syms) =>
        match readRegions d2 rest with
        | (d3, .error e) => (d3, .error e)
        | (d3, .ok out) =>
          (d3, .ok (⟨r.type, BoundingBox.from_MuRET r.bounding_box,
                     r.semantic_encoding, syms⟩ :: out))

/-- Page loop of Package.read_file. -/
def readPages (self : Dicts) : List PageJson → Dicts × Except RfError (List Page)
  | [] => (self, .ok [])
  | p :: rest =>
    match readRegions self (p.regions.getD []) with
    | (d2, .error e) => (d2, .error e)
    | (d2, .ok regs) =>
      match readPages d2 rest with
      | (d3, .error e) => (d3, .error e)
      | (d3, .ok out) =>
        (d3, .ok (⟨BoundingBox.from_MuRET p.bounding_box, regs⟩ :: out))

/-- Package.read_file : builds one Image graph from a parsed data file,
checking every referenced label against the dictionaries. -/
def readFile (self : Dicts) (file : FileJson) : Dicts × Except RfError Image :=
  match readPages self (file.pages.getD []) with
  | (d2, .error e) => (d2, .error e)
  | (d2, .ok pages) => (d2, .ok ⟨file.id, file.url, file.filename, pages⟩)

/-- Fold of read_file over the data files. The thread pool of the
source completes futures in nondeterministic order; submission order is
fixed here as one admissible schedule, and the claims settled below do
not depend on the chosen order. The first escaping exception aborts the
construction, as future.result() re-raises it in Package.__init__. -/
def readFiles (self : Dicts) : List FileJson → Dicts × Except RfError (List Image)
  | [] => (self, .ok [])
  | f :: rest =>
    match readFile self f with
    | (d2, .error e) => (d2, .error e)
    | (d2, .ok img) =>
      match readFiles d2 rest with
      | (d3, .error e) => (d3, .error e)
      | (d3, .ok out) => (d3, .ok (img :: out))

/-- Dictionary.from_json : fails when the root element is absent from
the parsed dictionary.json document. -/
def Dictionary.from_json (json_object : List (String × List String)) (root_element : String) :
    Except MuRETException Dictionary :=
  match assocLookup json_object root_element with
  | none => .error ⟨"No root element named " ++ root_element⟩
  | some label_list => .ok (Dictionary.ofList label_list)

/-- Errors escaping Package.__init__. -/
inductive PkgError where
  | ioError (msg : String)
  | muret (m : MuRETException)
  | fileError (e : RfError)
deriving Repr, DecidableEq

/-- Package state after a successful load. -/
structure Package where
  region_types : Dictionary
  agnostic_symbol_types : Dictionary
  agnostic_positions_in_staff : Dictionary
  training_set_images : List Image
deriving Repr, DecidableEq

/-- Filesystem contents seen by Package.__init__: existence of the
package folder, of dictionary.json and of the files subfolder, the
parsed dictionary.json document, and the parsed JSON data files found
under files, already in the sorted order the loader produces. -/
structure PkgFS where
  folderExists : Bool
  dictionaryJsonExists : Bool
  dictionaryJson : List (String × List String)
  filesFolderExists : Bool
  dataFiles : List FileJson

/-- Package.__init__ : checks the folder and dictionary.json, loads the
three dictionaries, enumerates and parses the data files, rejects an
empty package, and builds the image graphs. The first component counts
the data files read under files, zero whenever the run fails before the
loader touches them. -/
def packageInit (fs : PkgFS) : ℕ × Except PkgError Package :=
  if fs.folderExists = false then (0, .error (.ioError "Folder does not exist"))
  else if fs.dictionaryJsonExists = false then
    (0, .error (.ioError "Dictionary file does not exist"))
  else
    match Dictionary.from_json fs.dictionaryJson "region_dictionary" with
    | .error e => (0, .error (.muret e))
    | .ok region_types =>
      match Dictionary.from_json fs.dictionaryJson "agnostic_symbol_types" with
      | .error e => (0, .error (.muret e))
      | .ok ast =>
        match Dictionary.from_json fs.dictionaryJson "agnostic_positions_in_staff" with
        | .error e => (0, .error (.muret e))
        | .ok apis =>
          if fs.filesFolderExists = false then
            (0, .error (.ioError "Files folder does not exist"))
          else
            let nread := fs.dataFiles.length
            if fs.dataFiles.length = 0 then
              (nread, .error (.muret ⟨"Empty MuRET training set package"⟩))
            else
              match readFiles ⟨region_types, ast, apis⟩ fs.dataFiles with
              | (_, .error e) => (nread, .error (.fileError e))
              | (d, .ok images) =>
                (nread, .ok ⟨d.region_types, d.agnostic_symbol_types,
                             d.agnostic_positions_in_staff, images⟩)

/-! ## Helper lemmas for the round-trip bound -/

theorem abs_round5_sub (q : ℚ) : |round5 q - q| ≤ 1 / 200000 := by
  have h := abs_sub_round (q * 100000)
  rw [abs_sub_comm] at h
  have heq : round5 q - q = (((round (q * 100000) : ℤ) : ℚ) - q * 100000) / 100000 := by
    unfold round5; ring
  rw [heq, abs_div, abs_of_pos (by norm_num : (0:ℚ) < 100000)]
  calc |((round (q * 100000) : ℤ) : ℚ) - q * 100000| / 100000
      ≤ (1 / 2) / 100000 := by
        exact (div_le_div_right (by norm_num : (0:ℚ) < 100000)).mpr h
    _ = 1 / 200000 := by norm_num

theorem pascal_coords_recover_sub (x1 x2 W cxe we : ℚ) (hW : W ≠ 0)
    (hcx : cxe = ((x1 + x2) / 2) / W) (hwe : we = (x2 - x1) / W) :
    x1 = cxe * W - (we * W) / 2 := by
  subst hcx hwe; field_simp; ring

theorem pascal_coords_recover_add (x1 x2 W cxe we : ℚ) (hW : W ≠ 0)
    (hcx : cxe = ((x1 + x2) / 2) / W) (hwe : we = (x2 - x1) / W) :
    x2 = cxe * W + (we * W) / 2 := by
  subst hcx hwe; field_simp; ring

theorem round5_bound_comb_sub (W u v : ℚ) (hW : 0 < W)
    (hu : |u| ≤ 1 / 200000) (hv : |v| ≤ 1 / 200000) :
    |u * W - (v * W) / 2| ≤ 3 * W / 400000 := by
  rw [abs_le] at hu hv ⊢
  have h1 : 0 ≤ (u + 1 / 200000) * W := mul_nonneg (by linarith) hW.le
  have h2 : 0 ≤ (1 / 200000 - u) * W := mul_nonneg (by linarith) hW.le
  have h3 : 0 ≤ (v + 1 / 200000) * W := mul_nonneg (by linarith) hW.le
  have h4 : 0 ≤ (1 / 200000 - v) * W := mul_nonneg (by linarith) hW.le
  constructor <;> nlinarith [h1, h2, h3, h4]

theorem round5_bound_comb_add (W u v : ℚ) (hW : 0 < W)
    (hu : |u| ≤ 1 / 200000) (hv : |v| ≤ 1 / 200000) :
    |u * W + (v * W) / 2| ≤ 3 * W / 400000 := by
  have h := round5_bound_comb_sub W u (-v) hW hu (by rwa [abs_neg])
  have heq : u * W - (-v * W) / 2 = u * W + (v * W) / 2 := by ring
  rwa [heq] at h

/-! ## Dictionary lemmas -/

theorem fsAcc_cons (acc : List String) (x : String) (rest : List String) :
    fsAcc acc (x :: rest) = fsAcc (if x ∈ acc then acc else acc ++ [x]) rest := rfl

theorem fsAcc_shape (ls : List String) : ∀ acc : List String, ∃ t, fsAcc acc ls = acc ++ t := by
  induction ls with
  | nil => intro acc; exact ⟨[], by simp [fsAcc]⟩
  | cons x rest ih =>
    intro acc
    rw [fsAcc_cons]
    by_cases h : x ∈ acc
    · rw [if_pos h]; exact ih acc
    · rw [if_neg h]
      obtain ⟨t, ht⟩ := ih (acc ++ [x])
      exact ⟨[x] ++ t, by rw [ht, List.append_assoc]⟩

theorem mem_fsAcc (ls : List String) : ∀ (acc : List String) (x : String),
    x ∈ fsAcc acc ls ↔ x ∈ acc ∨ x ∈ ls := by
  induction ls with
  | nil => intro acc x; simp [fsAcc]
  | cons y rest ih =>
    intro acc x
    rw [fsAcc_cons]
    by_cases h : y ∈ acc
    · rw [if_pos h, ih]
      constructor
      · rintro (hx | hx)
        · exact Or.inl hx
        · exact Or.inr (List.mem_cons_of_mem y hx)
      · rintro (hx | hx)
        · exact Or.inl hx
        · rcases List.mem_cons.mp hx with hx | hx
          · exact Or.inl (hx ▸ h)
          · exact Or.inr hx
    · rw [if_neg h, ih]
      simp only [List.mem_append, List.mem_singleton, List.mem_cons]
      tauto

theorem fsAcc_indexOf_firstSeen (ls : List String) : ∀ (acc : List String) (L : String),
    L ∉ acc → L ∈ ls →
    (fsAcc acc ls).indexOf L = (fsAcc acc (ls.takeWhile (fun x => x != L))).length := by
  induction ls with
  | nil => intro acc L _ hL; cases hL
  | cons y rest ih =>
    intro acc L hacc hL
    by_cases hy : y = L
    · subst hy
      have htw : (y :: rest).takeWhile (fun x => x != y) = [] := by
        rw [List.takeWhile_cons]; simp
      rw [htw, fsAcc_cons, if_neg hacc]
      obtain ⟨t, ht⟩ := fsAcc_shape rest (acc ++ [y])
      rw [ht, List.append_assoc]
      show List.indexOf y (acc ++ (y :: t)) = (fsAcc acc []).length
      rw [List.indexOf_append_of_not_mem hacc, List.indexOf_cons_self]
      simp [fsAcc]
    · have hbne : (y != L) = true := bne_iff_ne.mpr hy
      have htw : (y :: rest).takeWhile (fun x => x != L) = y :: rest.takeWhile (fun x => x != L) := by
        rw [List.takeWhile_cons, hbne, if_pos rfl]
      have hLrest : L ∈ rest := by
        rcases List.mem_cons.mp hL with h | h
        · exact absurd h.symm hy
        · exact h
      rw [htw, fsAcc_cons, fsAcc_cons]
      by_cases hmem : y ∈ acc
      · rw [if_pos hmem]
        exact ih acc L hacc hLrest
      · rw [if_neg hmem]
        have hacc2 : L ∉ acc ++ [y] := by
          simp only [List.mem_append, List.mem_singleton]
          rintro (h | h)
          · exact hacc h
          · exact hy h.symm
        exact ih (acc ++ [y]) L hacc2 hLrest

theorem invLookup_append (m : List (String × ℕ)) (x k : String) (v : ℕ) :
    invLookup (m ++ [(k, v)]) x =
      match invLookup m x with
      | some w => some w
      | none => if x = k then some v else none := by
  induction m with
  | nil => simp [invLookup]
  | cons p rest ih =>
    obtain ⟨pk, pv⟩ := p
    by_cases hx : x = pk <;> simp [invLookup, hx, ih]

/-- Invariant of a reachable Dictionary: the label list holds no
duplicates and the inverted dict maps each stored label to its position
in the label list. -/
def DictInv (d : Dictionary) : Prop :=
  d.label_list.Nodup ∧
  ∀ l : String, invLookup d.inverted l =
    if l ∈ d.label_list then some (d.label_list.indexOf l) else none

theorem dictInv_empty : DictInv Dictionary.empty :=
  ⟨List.nodup_nil, fun l => by simp [Dictionary.empty, invLookup]⟩

theorem dictInv_add (d : Dictionary) (l : String) (h : DictInv d) : DictInv (d.add l) := by
  obtain ⟨hnd, hinv⟩ := h
  by_cases hmem : l ∈ d.label_list
  · rw [Dictionary.add, if_pos hmem]; exact ⟨hnd, hinv⟩
  · rw [Dictionary.add, if_neg hmem]
    have hidx : (d.label_list ++ [l]).indexOf l = d.label_list.length := by
      rw [List.indexOf_append_of_not_mem hmem, List.indexOf_cons_self]
      exact Nat.add_zero _
    have hset : invSet d.inverted l ((d.label_list ++ [l]).indexOf l)
        = d.inverted ++ [(l, (d.label_list ++ [l]).indexOf l)] := by
      rw [invSet, if_neg (by rw [hinv l, if_neg hmem]; simp)]
    constructor
    · exact hnd.append (List.nodup_singleton l)
        (fun a ha hb => by rw [List.mem_singleton] at hb; exact hmem (hb ▸ ha))
    · intro x
      show invLookup (invSet d.inverted l ((d.label_list ++ [l]).indexOf l)) x = _
      rw [hset, invLookup_append, hinv x]
      by_cases hx : x ∈ d.label_list
      · rw [if_pos hx, if_pos (List.mem_append_left _ hx), List.indexOf_append_of_mem hx]
      · rw [if_neg hx]
        by_cases hxl : x = l
        · subst hxl
          rw [if_pos rfl, if_pos (List.mem_append_right _ (List.mem_singleton_self x))]
        · rw [if_neg hxl, if_neg (by
            simp only [List.mem_append, List.mem_singleton]
            rintro (h | h)
            · exact hx h
            · exact hxl h)]

theorem dictInv_foldl (ls : List String) : ∀ d : Dictionary, DictInv d →
    DictInv (ls.foldl Dictionary.add d) := by
  induction ls with
  | nil => intro d h; exact h
  | cons x rest ih => intro d h; exact ih _ (dictInv_add d x h)

theorem dictInv_ofList (ls : List String) : DictInv (Dictionary.ofList ls) :=
  dictInv_foldl ls Dictionary.empty dictInv_empty

theorem label_list_foldl (ls : List String) : ∀ d : Dictionary,
    (ls.foldl Dictionary.add d).label_list = fsAcc d.label_list ls := by
  induction ls with
  | nil => intro d; rfl
  | cons x rest ih =>
    intro d
    rw [List.foldl_cons, ih, fsAcc_cons]
    congr 1
    rw [Dictionary.add]
    by_cases h : x ∈ d.label_list <;> simp [h]

theorem label_list_ofList (ls : List String) :
    (Dictionary.ofList ls).label_list = fsAcc [] ls :=
  label_list_foldl ls Dictionary.empty

theorem mem_label_list_ofList (ls : List String) (x : String) :
    x ∈ (Dictionary.ofList ls).label_list ↔ x ∈ ls := by
  rw [label_list_ofList, mem_fsAcc]
  simp

theorem dictionary_label_ok (d : Dictionary) (i : ℕ) (h : i < d.label_list.length) :
    d.label (i : ℤ) = .ok (d.label_list.getD i "") := by
  rw [Dictionary.label, if_neg (by omega), if_neg (by exact_mod_cast not_le.mpr h)]
  norm_num

/-- C1: for every pascal-tagged box (x1,y1,x2,y2) and image dimensions
(W,H) with W, H positive, converting with to(yolo, D) and then with
to(pascal, D) succeeds and yields a pascal box whose four coordinates
equal the originals within the tolerance induced by rounding the four
yolo coordinates to 5 decimal places, namely 3W/400000 on x coordinates
and 3H/400000 on y coordinates. -/
theorem pascal_yolo_pascal_roundtrip (x1 y1 x2 y2 W H : ℚ) (hW : 0 < W) (hH : 0 < H) :
    ∃ Y P : BoundingBox,
      (BoundingBox.mk x1 y1 x2 y2 "pascal").to "yolo" (some (W, H)) = .ok Y ∧
      Y.to "pascal" (some (W, H)) = .ok P ∧
      P.current_format = "pascal" ∧
      |P.a - x1| ≤ 3 * W / 400000 ∧
      |P.b - y1| ≤ 3 * H / 400000 ∧
      |P.c - x2| ≤ 3 * W / 400000 ∧
      |P.d - y2| ≤ 3 * H / 400000 := by
  refine ⟨⟨round5 (((x1 + x2) / 2) / W), round5 (((y1 + y2) / 2) / H),
           round5 ((x2 - x1) / W), round5 ((y2 - y1) / H), "yolo"⟩,
          ⟨round5 (((x1 + x2) / 2) / W) * W - (round5 ((x2 - x1) / W) * W) / 2,
           round5 (((y1 + y2) / 2) / H) * H - (round5 ((y2 - y1) / H) * H) / 2,
           round5 (((x1 + x2) / 2) / W) * W - (round5 ((x2 - x1) / W) * W) / 2
             + round5 ((x2 - x1) / W) * W,
           round5 (((y1 + y2) / 2) / H) * H - (round5 ((y2 - y1) / H) * H) / 2
             + round5 ((y2 - y1) / H) * H, "pascal"⟩,
          rfl, rfl, rfl, ?_, ?_, ?_, ?_⟩
  · have hx1 := pascal_coords_recover_sub x1 x2 W _ _ hW.ne.symm rfl rfl
    have heq : round5 (((x1 + x2) / 2) / W) * W - (round5 ((x2 - x1) / W) * W) / 2 - x1
        = (round5 (((x1 + x2) / 2) / W) - ((x1 + x2) / 2) / W) * W
          - ((round5 ((x2 - x1) / W) - (x2 - x1) / W) * W) / 2 := by
      linear_combination (-1 : ℚ) * hx1
    rw [heq]
    exact round5_bound_comb_sub W _ _ hW (abs_round5_sub _) (abs_round5_sub _)
  · have hy1 := pascal_coords_recover_sub y1 y2 H _ _ hH.ne.symm rfl rfl
    have heq : round5 (((y1 + y2) / 2) / H) * H - (round5 ((y2 - y1) / H) * H) / 2 - y1
        = (round5 (((y1 + y2) / 2) / H) - ((y1 + y2) / 2) / H) * H
          - ((round5 ((y2 - y1) / H) - (y2 - y1) / H) * H) / 2 := by
      linear_combination (-1 : ℚ) * hy1
    rw [heq]
    exact round5_bound_comb_sub H _ _ hH (abs_round5_sub _) (abs_round5_sub _)
  · have hx2 := pascal_coords_recover_add x1 x2 W _ _ hW.ne.symm rfl rfl
    have heq : round5 (((x1 + x2) / 2) / W) * W - (round5 ((x2 - x1) / W) * W) / 2
          + round5 ((x2 - x1) / W) * W - x2
        = (round5 (((x1 + x2) / 2) / W) - ((x1 + x2) / 2) / W) * W
          + ((round5 ((x2 - x1) / W) - (x2 - x1) / W) * W) / 2 := by
      linear_combination (-1 : ℚ) * hx2
    rw [heq]
    exact round5_bound_comb_add W _ _ hW (abs_round5_sub _) (abs_round5_sub _)
  · have hy2 := pascal_coords_recover_add y1 y2 H _ _ hH.ne.symm rfl rfl
    have heq : round5 (((y1 + y2) / 2) / H) * H - (round5 ((y2 - y1) / H) * H) / 2
          + round5 ((y2 - y1) / H) * H - y2
        = (round5 (((y1 + y2) / 2) / H) - ((y1 + y2) / 2) / H) * H
          + ((round5 ((y2 - y1) / H) - (y2 - y1) / H) * H) / 2 := by
      linear_combination (-1 : ℚ) * hy2
    rw [heq]
    exact round5_bound_comb_add H _ _ hH (abs_round5_sub _) (abs_round5_sub _)

/-- Witness for C1 at the concrete pascal box (10,10,90,190) on a
100 by 200 image. -/
theorem pascal_yolo_pascal_roundtrip_witness :
    (0:ℚ) < 100 ∧ (0:ℚ) < 200 ∧
    (∃ Y P : BoundingBox,
      (BoundingBox.mk 10 10 90 190 "pascal").to "yolo" (some (100, 200)) = .ok Y ∧
      Y.to "pascal" (some (100, 200)) = .ok P ∧
      P.current_format = "pascal" ∧
      |P.a - 10| ≤ 3 * 100 / 400000 ∧
      |P.b - 10| ≤ 3 * 200 / 400000 ∧
      |P.c - 90| ≤ 3 * 100 / 400000 ∧
      |P.d - 190| ≤ 3 * 200 / 400000) :=
  ⟨by norm_num, by norm_num,
   pascal_yolo_pascal_roundtrip 10 10 90 190 100 200 (by norm_num) (by norm_num)⟩

/-- C10: only the constructor validates the format tag; to(format, dims)
dispatches by attribute-name lookup, so a format string outside the
supported set fails with an AttributeError (naming to_ plus the format)
rather than the ValueError the constructor raises, while each of the
three supported strings always dispatches to the matching conversion
method. -/
theorem to_dispatch_attribute_lookup (box : BoundingBox) (av bv cv dv : ℚ)
    (fmt : String) (dims : Option (ℚ × ℚ)) (h : fmt ∉ SUPPORTED_OD_FORMATS) :
    box.to fmt dims = .error (.attributeError ("to_" ++ fmt)) ∧
    mkBoundingBox av bv cv dv fmt = .error (.valueError ("Unsupported format " ++ fmt)) ∧
    (∀ (box2 : BoundingBox) (dims2 : Option (ℚ × ℚ)),
      box2.to "yolo" dims2 = box2.to_yolo dims2 ∧
      box2.to "coco" dims2 = box2.to_coco dims2 ∧
      box2.to "pascal" dims2 = box2.to_pascal dims2) := by
  simp only [SUPPORTED_OD_FORMATS, List.mem_cons, List.not_mem_nil, or_false] at h
  push_neg at h
  obtain ⟨h1, h2, h3⟩ := h
  refine ⟨?_, ?_, ?_⟩
  · simp [BoundingBox.to, h1, h2, h3]
  · simp [mkBoundingBox, SUPPORTED_OD_FORMATS, h1, h2, h3]
  · intro box2 dims2
    exact ⟨rfl, rfl, rfl⟩

/-- Witness for C10 at the unsupported format string voc. -/
theorem to_dispatch_attribute_lookup_witness :
    ("voc" ∉ SUPPORTED_OD_FORMATS) ∧
    ((BoundingBox.mk 1 2 3 4 "pascal").to "voc" none
        = .error (.attributeError ("to_" ++ "voc")) ∧
     mkBoundingBox 1 2 3 4 "voc" = .error (.valueError ("Unsupported format " ++ "voc")) ∧
     (∀ (box2 : BoundingBox) (dims2 : Option (ℚ × ℚ)),
       box2.to "yolo" dims2 = box2.to_yolo dims2 ∧
       box2.to "coco" dims2 = box2.to_coco dims2 ∧
       box2.to "pascal" dims2 = box2.to_pascal dims2)) :=
  ⟨by decide, to_dispatch_attribute_lookup (BoundingBox.mk 1 2 3 4 "pascal") 1 2 3 4
      "voc" none (by decide)⟩

/-! ## Partition lemmas -/

theorem take_clamp {α : Type} (l : List α) (k n : ℕ) (hl : l.length ≤ n) :
    l.take (min k n) = l.take k := by
  rcases le_total k n with h | h
  · rw [min_eq_left h]
  · rw [min_eq_right h, List.take_of_length_le hl, List.take_of_length_le (hl.trans h)]

theorem drop_clamp {α : Type} (l : List α) (k n : ℕ) (hl : l.length ≤ n) :
    l.drop (min k n) = l.drop k := by
  rcases le_total k n with h | h
  · rw [min_eq_left h]
  · rw [min_eq_right h, List.drop_eq_nil_of_le hl, List.drop_eq_nil_of_le (hl.trans h)]

theorem pySliceTo_nonneg {α : Type} (l : List α) (j : ℤ) (h : 0 ≤ j) :
    pySliceTo l j = l.take j.toNat := by
  rw [pySliceTo, pyIdx, if_neg (not_lt.mpr h)]
  exact take_clamp l j.toNat l.length le_rfl

theorem pySliceFrom_nonneg {α : Type} (l : List α) (i : ℤ) (h : 0 ≤ i) :
    pySliceFrom l i = l.drop i.toNat := by
  rw [pySliceFrom, pyIdx, if_neg (not_lt.mpr h)]
  exact drop_clamp l i.toNat l.length le_rfl

theorem pySlice_nonneg {α : Type} (l : List α) (i j : ℤ) (hi : 0 ≤ i) (hj : 0 ≤ j) :
    pySlice l i j = (l.drop i.toNat).take (j.toNat - i.toNat) := by
  rw [pySlice, pyIdx, pyIdx, if_neg (not_lt.mpr hi), if_neg (not_lt.mpr hj),
    take_clamp l j.toNat l.length le_rfl,
    drop_clamp (l.take j.toNat) i.toNat l.length (by
      rw [List.length_take]; exact min_le_right _ _),
    List.drop_take]

/-- C3: for every Dictionary built by a sequence of add calls (as the
constructor does from a label list) and every added label L, the label
of the index of L is L, index and label are mutually inverse on the
dense range 0 to size-1, the label list holds no duplicates, add is a
no-op on a present label, and the index of L equals the number of
distinct labels seen before the first occurrence of L (first-seen
order). -/
theorem dictionary_invariants (ls : List String) (L : String) (hL : L ∈ ls) :
    (∃ i : ℕ, (Dictionary.ofList ls).index_of L = .ok i ∧
              (Dictionary.ofList ls).label (i : ℤ) = .ok L) ∧
    (∀ i : ℕ, i < (Dictionary.ofList ls).size →
       ∃ l : String, (Dictionary.ofList ls).label (i : ℤ) = .ok l ∧
                     (Dictionary.ofList ls).index_of l = .ok i) ∧
    (Dictionary.ofList ls).label_list.Nodup ∧
    (∀ l : String, (Dictionary.ofList ls).contains l = true →
       (Dictionary.ofList ls).add l = Dictionary.ofList ls) ∧
    (Dictionary.ofList ls).index_of L =
      .ok (Dictionary.ofList (ls.takeWhile (fun x => x != L))).size := by
  obtain ⟨hnd, hlk⟩ := dictInv_ofList ls
  have hm : L ∈ (Dictionary.ofList ls).label_list := (mem_label_list_ofList ls L).mpr hL
  have hidx : (Dictionary.ofList ls).index_of L
      = .ok ((Dictionary.ofList ls).label_list.indexOf L) := by
    rw [Dictionary.index_of, hlk L, if_pos hm]
  refine ⟨?_, ?_, hnd, ?_, ?_⟩
  · refine ⟨(Dictionary.ofList ls).label_list.indexOf L, hidx, ?_⟩
    have hlt := List.indexOf_lt_length.mpr hm
    rw [dictionary_label_ok _ _ hlt]
    congr 1
    rw [List.getD_eq_getElem _ _ hlt]
    exact List.getElem_indexOf hlt
  · intro i hi
    have hi' : i < (Dictionary.ofList ls).label_list.length := hi
    refine ⟨(Dictionary.ofList ls).label_list.getD i "", dictionary_label_ok _ _ hi', ?_⟩
    have hmi : (Dictionary.ofList ls).label_list.getD i ""
        ∈ (Dictionary.ofList ls).label_list := by
      rw [List.getD_eq_getElem _ _ hi']
      exact List.getElem_mem hi'
    have hval : (Dictionary.ofList ls).label_list.indexOf
        ((Dictionary.ofList ls).label_list.getD i "") = i := by
      rw [List.getD_eq_getElem _ _ hi']
      exact List.indexOf_getElem hnd i hi'
    rw [Dictionary.index_of, hlk _, if_pos hmi, hval]
  · intro l hc
    rw [Dictionary.contains] at hc
    have hml : l ∈ (Dictionary.ofList ls).label_list := by
      by_contra hno
      rw [hlk l, if_neg hno] at hc
      simp at hc
    rw [Dictionary.add, if_pos hml]
  · rw [hidx]
    congr 1
    rw [label_list_ofList, Dictionary.size, label_list_ofList]
    exact fsAcc_indexOf_firstSeen ls [] L (List.not_mem_nil L) hL

/-- Witness for C3 on a concrete label sequence with a repeat. -/
theorem dictionary_invariants_witness :
    "staff" ∈ ["lyrics", "staff", "lyrics", "empty"] ∧
    ((∃ i : ℕ,
        (Dictionary.ofList ["lyrics", "staff", "lyrics", "empty"]).index_of "staff" = .ok i ∧
        (Dictionary.ofList ["lyrics", "staff", "lyrics", "empty"]).label (i : ℤ) = .ok "staff") ∧
     (∀ i : ℕ, i < (Dictionary.ofList ["lyrics", "staff", "lyrics", "empty"]).size →
        ∃ l : String,
          (Dictionary.ofList ["lyrics", "staff", "lyrics", "empty"]).label (i : ℤ) = .ok l ∧
          (Dictionary.ofList ["lyrics", "staff", "lyrics", "empty"]).index_of l = .ok i) ∧
     (Dictionary.ofList ["lyrics", "staff", "lyrics", "empty"]).label_list.Nodup ∧
     (∀ l : String,
        (Dictionary.ofList ["lyrics", "staff", "lyrics", "empty"]).contains l = true →
        (Dictionary.ofList ["lyrics", "staff", "lyrics", "empty"]).add l
          = Dictionary.ofList ["lyrics", "staff", "lyrics", "empty"]) ∧
     (Dictionary.ofList ["lyrics", "staff", "lyrics", "empty"]).index_of "staff" =
       .ok (Dictionary.ofList
         (["lyrics", "staff", "lyrics", "empty"].takeWhile (fun x => x != "staff"))).size) :=
  ⟨by decide, dictionary_invariants ["lyrics", "staff", "lyrics", "empty"] "staff" (by decide)⟩

/-- C2 (amended to nonnegative fractions): if the fractions rounded as
a sum to 2 decimal places differ from 1 the partition fails with a
validation error; otherwise it returns exactly the contiguous slices
from 0 to floor(N train), the next floor(N validation) items, and the
remainder, which concatenate back to the input (order-preserving,
disjoint, exhaustive); and fractions (0.7, 0.2, 0.1) over a 100-item
list yield sublists of sizes 70, 20 and 10. For a negative fraction the
sum check can still pass while Python negative-index slicing departs
from these index formulas, see the counterexample. -/
theorem partition_three_way_split {α : Type} (dataset : List α) (t v te : ℚ)
    (ht : 0 ≤ t) (hv : 0 ≤ v) (hte : 0 ≤ te) :
    (round2 (t + v + te) ≠ 1 →
      partition dataset ⟨t, v, te⟩ = .error ⟨"The sum of all splits should be 1"⟩) ∧
    (round2 (t + v + te) = 1 →
      ∃ A B C : List α,
        partition dataset ⟨t, v, te⟩ = .ok (A, B, C) ∧
        A = dataset.take (⌊(dataset.length : ℚ) * t⌋).toNat ∧
        B = (dataset.drop (⌊(dataset.length : ℚ) * t⌋).toNat).take
              (⌊(dataset.length : ℚ) * v⌋).toNat ∧
        C = dataset.drop ((⌊(dataset.length : ℚ) * t⌋).toNat
              + (⌊(dataset.length : ℚ) * v⌋).toNat) ∧
        A ++ B ++ C = dataset) ∧
    (∀ l2 : List α, l2.length = 100 →
      ∃ A B C : List α,
        partition l2 ⟨7/10, 2/10, 1/10⟩ = .ok (A, B, C) ∧
        A.length = 70 ∧ B.length = 20 ∧ C.length = 10) := by
  have hN : (0:ℚ) ≤ (dataset.length : ℚ) := Nat.cast_nonneg _
  have hf1 : 0 ≤ ⌊(dataset.length : ℚ) * t⌋ := Int.floor_nonneg.mpr (mul_nonneg hN ht)
  have hf2 : 0 ≤ ⌊(dataset.length : ℚ) * v⌋ := Int.floor_nonneg.mpr (mul_nonneg hN hv)
  refine ⟨?_, ?_, ?_⟩
  · intro h
    simp only [partition]
    rw [if_pos h]
  · intro h
    simp only [partition]
    rw [if_neg (fun hne => hne h)]
    refine ⟨_, _, _, rfl, ?_, ?_, ?_, ?_⟩
    · exact pySliceTo_nonneg dataset _ hf1
    · rw [pySlice_nonneg dataset _ _ hf1 (by omega)]
      congr 1
      omega
    · rw [pySliceFrom_nonneg dataset _ (by omega)]
      congr 1
      omega
    · rw [pySliceTo_nonneg dataset _ hf1,
        pySlice_nonneg dataset _ _ hf1 (by omega),
        pySliceFrom_nonneg dataset _ (by omega)]
      have hm : (⌊(dataset.length : ℚ) * t⌋ + ⌊(dataset.length : ℚ) * v⌋).toNat
          = (⌊(dataset.length : ℚ) * t⌋).toNat + (⌊(dataset.length : ℚ) * v⌋).toNat := by
        omega
      rw [hm]
      have hd : (⌊(dataset.length : ℚ) * t⌋).toNat + (⌊(dataset.length : ℚ) * v⌋).toNat
          - (⌊(dataset.length : ℚ) * t⌋).toNat = (⌊(dataset.length : ℚ) * v⌋).toNat := by
        omega
      rw [hd, ← List.take_add, List.take_append_drop]
  · intro l2 hlen
    have hsum : round2 ((7:ℚ)/10 + 2/10 + 1/10) = 1 := by
      rw [show ((7:ℚ)/10 + 2/10 + 1/10) = 1 by norm_num, round2,
        show ((1:ℚ) * 100) = ((100:ℤ):ℚ) by norm_num, round_intCast]
      norm_num
    have hfa : ⌊(l2.length : ℚ) * ((7:ℚ)/10)⌋ = 70 := by
      rw [hlen, show ((100:ℕ):ℚ) * ((7:ℚ)/10) = ((70:ℤ):ℚ) by norm_num, Int.floor_intCast]
    have hfb : ⌊(l2.length : ℚ) * ((2:ℚ)/10)⌋ = 20 := by
      rw [hlen, show ((100:ℕ):ℚ) * ((2:ℚ)/10) = ((20:ℤ):ℚ) by norm_num, Int.floor_intCast]
    simp only [partition]
    rw [if_neg (fun hne => hne hsum), hfa, hfb]
    refine ⟨_, _, _, rfl, ?_, ?_, ?_⟩
    · rw [pySliceTo_nonneg l2 70 (by norm_num)]
      rw [List.length_take, hlen]
      omega
    · rw [pySlice_nonneg l2 70 (70 + 20) (by norm_num) (by norm_num)]
      rw [List.length_take, List.length_drop, hlen]
      omega
    · rw [pySliceFrom_nonneg l2 (70 + 20) (by norm_num)]
      rw [List.length_drop, hlen]
      omega

/-- Witness for C2 at fractions (1/2, 1/4, 1/4) on a 4-item list, and
at an invalid sum. -/
theorem partition_three_way_split_witness :
    ((0:ℚ) ≤ 1/2 ∧ (0:ℚ) ≤ 1/4 ∧ (0:ℚ) ≤ 1/4) ∧
    ((round2 ((1:ℚ)/2 + 1/4 + 1/4) ≠ 1 →
      partition [10, 20, 30, 40] ⟨1/2, 1/4, 1/4⟩
        = .error ⟨"The sum of all splits should be 1"⟩) ∧
    (round2 ((1:ℚ)/2 + 1/4 + 1/4) = 1 →
      ∃ A B C : List ℕ,
        partition [10, 20, 30, 40] ⟨1/2, 1/4, 1/4⟩ = .ok (A, B, C) ∧
        A = [10, 20, 30, 40].take (⌊(([10, 20, 30, 40] : List ℕ).length : ℚ) * (1/2)⌋).toNat ∧
        B = ([10, 20, 30, 40].drop (⌊(([10, 20, 30, 40] : List ℕ).length : ℚ) * (1/2)⌋).toNat).take
              (⌊(([10, 20, 30, 40] : List ℕ).length : ℚ) * (1/4)⌋).toNat ∧
        C = [10, 20, 30, 40].drop ((⌊(([10, 20, 30, 40] : List ℕ).length : ℚ) * (1/2)⌋).toNat
              + (⌊(([10, 20, 30, 40] : List ℕ).length : ℚ) * (1/4)⌋).toNat) ∧
        A ++ B ++ C = [10, 20, 30, 40]) ∧
    (∀ l2 : List ℕ, l2.length = 100 →
      ∃ A B C : List ℕ,
        partition l2 ⟨7/10, 2/10, 1/10⟩ = .ok (A, B, C) ∧
        A.length = 70 ∧ B.length = 20 ∧ C.length = 10)) :=
  ⟨⟨by norm_num, by norm_num, by norm_num⟩,
   partition_three_way_split [10, 20, 30, 40] (1/2) (1/4) (1/4)
     (by norm_num) (by norm_num) (by norm_num)⟩

/-- C2 counterexample: the fractions (-0.5, 1.5, 0) sum to 1 and pass
validation, but the train slice is dataset[:-5], which Python resolves
from the end of the list: the code returns the first 5 items while the
claimed slice [0, floor(10 times -0.5)) = [0, -5) is empty. -/
theorem partition_negative_fraction_counterexample :
    partition (List.range 10) ⟨-(1/2 : ℚ), 3/2, 0⟩
      = .ok ([0, 1, 2, 3, 4], [5, 6, 7, 8, 9], ([] : List ℕ)) ∧
    ⌊((List.range 10).length : ℚ) * (-(1/2 : ℚ))⌋ = -5 ∧
    ([0, 1, 2, 3, 4] : List ℕ) ≠ [] := by
  have hsum : round2 (-(1/2 : ℚ) + 3/2 + 0) = 1 := by
    rw [show (-(1/2 : ℚ) + 3/2 + 0) = 1 by norm_num, round2,
      show ((1:ℚ) * 100) = ((100:ℤ):ℚ) by norm_num, round_intCast]
    norm_num
  have hfa : ⌊((List.range 10).length : ℚ) * (-(1/2 : ℚ))⌋ = -5 := by
    rw [List.length_range,
      show ((10:ℕ):ℚ) * (-(1/2 : ℚ)) = ((-5:ℤ):ℚ) by norm_num, Int.floor_intCast]
  have hfb : ⌊((List.range 10).length : ℚ) * ((3:ℚ)/2)⌋ = 15 := by
    rw [List.length_range,
      show ((10:ℕ):ℚ) * ((3:ℚ)/2) = ((15:ℤ):ℚ) by norm_num, Int.floor_intCast]
  refine ⟨?_, hfa, by decide⟩
  simp only [partition]
  rw [if_neg (fun hne => hne hsum), hfa, hfb]
  rfl

/-! ## Label-file format lemmas -/

theorem to_yolo_some_ok (b : BoundingBox) (dims : ℚ × ℚ) :
    ∃ b2 : BoundingBox, b.to_yolo (some dims) = .ok b2 ∧ b2.current_format = "yolo" := by
  obtain ⟨w, hgt⟩ := dims
  rw [BoundingBox.to_yolo]
  by_cases h : b.current_format = "yolo"
  · exact ⟨b, by rw [if_pos h], h⟩
  · rw [if_neg h]
    by_cases hp : b.current_format = "pascal"
    · exact ⟨_, by rw [if_pos hp], rfl⟩
    · exact ⟨_, by rw [if_neg hp], rfl⟩

theorem objectPreprocess_yolo_ok (o : Object) (d r : ℚ × ℚ) :
    ∃ b2 : BoundingBox,
      objectPreprocess o "yolo" d r = .ok ⟨o.label, b2⟩ ∧ b2.current_format = "yolo" := by
  obtain ⟨b2, hb2, hfmt⟩ := to_yolo_some_ok (o.bounding_box.resize (r.1 / d.1, r.2 / d.2)) r
  refine ⟨b2, ?_, hfmt⟩
  rw [objectPreprocess]
  show ((o.bounding_box.resize (r.1 / d.1, r.2 / d.2)).to "yolo" (some r)).map _ = _
  rw [show (o.bounding_box.resize (r.1 / d.1, r.2 / d.2)).to "yolo" (some r)
      = (o.bounding_box.resize (r.1 / d.1, r.2 / d.2)).to_yolo (some r) from rfl, hb2]
  rfl

theorem imageInitObjects_total (objects : List Object) (d r : ℚ × ℚ) :
    ∃ objs : List Object,
      imageInitObjects objects d r = .ok objs ∧
      objs.length = objects.length ∧
      ∀ o ∈ objs, o.bounding_box.current_format = "yolo" := by
  induction objects with
  | nil => exact ⟨[], rfl, rfl, by simp⟩
  | cons o rest ih =>
    obtain ⟨objs, hml, hlen, hfmt⟩ := ih
    obtain ⟨b2, hb2, hfmt2⟩ := objectPreprocess_yolo_ok o d r
    refine ⟨⟨o.label, b2⟩ :: objs, ?_, by simp [hlen], ?_⟩
    · rw [imageInitObjects, List.mapM_cons, hb2]
      rw [imageInitObjects] at hml
      show (imageInitObjects rest d r).bind _ = _
      rw [imageInitObjects, hml]
      rfl
    · intro x hx
      rcases List.mem_cons.mp hx with h | h
      · rw [h]; exact hfmt2
      · exact hfmt x h

/-- C5 (amended): each label line emitted for a detection has the form
class index, x center, y center, width, height with the box in
yolo-normalized coordinates and fields separated by single spaces, one
detection per line; consecutive lines are separated by single newlines,
but the final line of the file is not newline-terminated because the
file is a newline-join of the lines (see the counterexample). -/
theorem label_file_line_format (objects : List Object) (d r : ℚ × ℚ) :
    ∃ objs : List Object,
      imageInitObjects objects d r = .ok objs ∧
      objs.length = objects.length ∧
      (∀ o ∈ objs, o.bounding_box.current_format = "yolo") ∧
      labelFileContents objs =
        String.intercalate "\n" (objs.map (fun o =>
          toString o.label ++ " " ++ numStr o.bounding_box.a ++ " " ++ numStr o.bounding_box.b
            ++ " " ++ numStr o.bounding_box.c ++ " " ++ numStr o.bounding_box.d)) := by
  obtain ⟨objs, h1, h2, h3⟩ := imageInitObjects_total objects d r
  exact ⟨objs, h1, h2, h3, rfl⟩

/-- Witness for C5 at a concrete one-object list. -/
theorem label_file_line_format_witness :
    ∃ objs : List Object,
      imageInitObjects [⟨3, ⟨10, 10, 90, 190, "pascal"⟩⟩] (100, 200) (100, 200) = .ok objs ∧
      objs.length = [(⟨3, ⟨10, 10, 90, 190, "pascal"⟩⟩ : Object)].length ∧
      (∀ o ∈ objs, o.bounding_box.current_format = "yolo") ∧
      labelFileContents objs =
        String.intercalate "\n" (objs.map (fun o =>
          toString o.label ++ " " ++ numStr o.bounding_box.a ++ " " ++ numStr o.bounding_box.b
            ++ " " ++ numStr o.bounding_box.c ++ " " ++ numStr o.bounding_box.d)) :=
  label_file_line_format [⟨3, ⟨10, 10, 90, 190, "pascal"⟩⟩] (100, 200) (100, 200)

/-- C5 counterexample: a two-detection label file ends with the last
line unterminated; str(image) joins lines with a newline separator and
__save_image writes it as the entire file, so no newline follows the
last detection. -/
theorem label_file_not_newline_terminated :
    imageInitObjects [⟨3, ⟨10, 10, 90, 190, "pascal"⟩⟩, ⟨4, ⟨0, 0, 100, 200, "pascal"⟩⟩]
        (100, 200) (100, 200)
      = .ok [⟨3, ⟨1/2, 1/2, 4/5, 9/10, "yolo"⟩⟩, ⟨4, ⟨1/2, 1/2, 1, 1, "yolo"⟩⟩] ∧
    labelFileContents [⟨3, ⟨1/2, 1/2, 4/5, 9/10, "yolo"⟩⟩, ⟨4, ⟨1/2, 1/2, 1, 1, "yolo"⟩⟩]
      = "3 1/2 1/2 4/5 9/10" ++ "\n" ++ "4 1/2 1/2 1 1" ∧
    ("3 1/2 1/2 4/5 9/10" ++ "\n" ++ "4 1/2 1/2 1 1").data.getLast? ≠ some ('\n' : Char) := by
  have h1 : objectPreprocess ⟨3, ⟨10, 10, 90, 190, "pascal"⟩⟩ "yolo" (100, 200) (100, 200)
      = .ok ⟨3, ⟨1/2, 1/2, 4/5, 9/10, "yolo"⟩⟩ := by
    simp only [objectPreprocess, BoundingBox.resize, BoundingBox.to, BoundingBox.to_yolo,
      round5]
    rw [if_neg (by decide : ("pascal" : String) ≠ "yolo")]
    norm_num
    rfl
  have h2 : objectPreprocess ⟨4, ⟨0, 0, 100, 200, "pascal"⟩⟩ "yolo" (100, 200) (100, 200)
      = .ok ⟨4, ⟨1/2, 1/2, 1, 1, "yolo"⟩⟩ := by
    simp only [objectPreprocess, BoundingBox.resize, BoundingBox.to, BoundingBox.to_yolo,
      round5]
    rw [if_neg (by decide : ("pascal" : String) ≠ "yolo")]
    norm_num
    rfl
  refine ⟨?_, ?_, by decide⟩
  · rw [imageInitObjects, List.mapM_cons, h1, List.mapM_cons, h2]
    rfl
  · norm_num [labelFileContents, imageStr, objectStr, numStr, String.intercalate,
      List.intersperse, toString]
    decide

/-! ## Store lemmas for the aliasing claim -/

theorem getD_set_self {α : Type} (l : List α) (i : ℕ) (a dflt : α) (h : i < l.length) :
    (l.set i a).getD i dflt = a := by
  rw [List.getD_eq_getElem?_getD, List.getElem?_set_eq h]
  rfl

theorem getD_set_ne {α : Type} (l : List α) (i j : ℕ) (a dflt : α) (h : j ≠ i) :
    (l.set i a).getD j dflt = l.getD j dflt := by
  rw [List.getD_eq_getElem?_getD, List.getElem?_set_ne (fun he => h he.symm),
    ← List.getD_eq_getElem?_getD]

theorem getD_append_left {α : Type} (l t : List α) (j : ℕ) (dflt : α) (h : j < l.length) :
    (l ++ t).getD j dflt = l.getD j dflt := by
  rw [List.getD_eq_getElem?_getD, List.getElem?_append, if_pos h, ← List.getD_eq_getElem?_getD]

/-- C7 (amended): the graph is not read-only under Object.preprocess.
The detection object aliases the bounding box owned by the graph page
or region, and preprocess scales exactly that box in place by the
resized-to-original dimension ratios; every other box of the store is
untouched, and only the Object own field is rebound to the freshly
allocated converted box. -/
theorem preprocessStore_frame (store : List BoundingBox) (obj : ODObject) (format : String)
    (d r : ℚ × ℚ) (href : obj.bounding_box < store.length)
    (store2 : List BoundingBox) (obj2 : ODObject)
    (h : preprocessStore store obj format d r = .ok (store2, obj2)) :
    store2.getD obj.bounding_box defaultBox
      = (store.getD obj.bounding_box defaultBox).resize (r.1 / d.1, r.2 / d.2) ∧
    (∀ ref : ℕ, ref < store.length → ref ≠ obj.bounding_box →
      store2.getD ref defaultBox = store.getD ref defaultBox) ∧
    obj2.label = obj.label := by
  rw [preprocessStore] at h
  set b1 := (store.getD obj.bounding_box defaultBox).resize (r.1 / d.1, r.2 / d.2) with hb1
  by_cases hf : b1.current_format = format
  · rw [if_pos hf] at h
    simp only [Except.ok.injEq, Prod.mk.injEq] at h
    obtain ⟨hs, ho⟩ := h
    subst hs ho
    refine ⟨getD_set_self store _ b1 defaultBox href, ?_, rfl⟩
    intro ref hlt hne
    exact getD_set_ne store _ ref b1 defaultBox hne
  · rw [if_neg hf] at h
    rcases hto : b1.to format (some r) with e | b2 <;> rw [hto] at h
    · cases h
    · simp only [Except.ok.injEq, Prod.mk.injEq] at h
      obtain ⟨hs, ho⟩ := h
      subst hs ho
      have hlen : obj.bounding_box < (store.set obj.bounding_box b1).length := by
        rw [List.length_set]; exact href
      refine ⟨?_, ?_, rfl⟩
      · rw [getD_append_left _ _ _ _ hlen]
        exact getD_set_self store _ b1 defaultBox href
      · intro ref hlt hne
        rw [getD_append_left _ _ _ _ (by rw [List.length_set]; exact hlt)]
        exact getD_set_ne store _ ref b1 defaultBox hne

/-- Witness for C7 at a one-box store scaled by 2 in both directions. -/
theorem preprocessStore_frame_witness :
    ((0:ℕ) < ([⟨1, 2, 3, 4, "pascal"⟩] : List BoundingBox).length) ∧
    preprocessStore [⟨1, 2, 3, 4, "pascal"⟩] ⟨7, 0⟩ "pascal" (1, 1) (2, 2)
      = .ok ([⟨2, 4, 6, 8, "pascal"⟩], ⟨7, 0⟩) ∧
    (([⟨2, 4, 6, 8, "pascal"⟩] : List BoundingBox).getD 0 defaultBox
      = (([⟨1, 2, 3, 4, "pascal"⟩] : List BoundingBox).getD 0 defaultBox).resize
          (((2:ℚ), (2:ℚ)).1 / ((1:ℚ), (1:ℚ)).1, ((2:ℚ), (2:ℚ)).2 / ((1:ℚ), (1:ℚ)).2) ∧
     (∀ ref : ℕ, ref < ([⟨1, 2, 3, 4, "pascal"⟩] : List BoundingBox).length → ref ≠ 0 →
       ([⟨2, 4, 6, 8, "pascal"⟩] : List BoundingBox).getD ref defaultBox
         = ([⟨1, 2, 3, 4, "pascal"⟩] : List BoundingBox).getD ref defaultBox) ∧
     (⟨7, 0⟩ : ODObject).label = (⟨7, 0⟩ : ODObject).label) := by
  have hEval : preprocessStore [⟨1, 2, 3, 4, "pascal"⟩] ⟨7, 0⟩ "pascal" (1, 1) (2, 2)
      = .ok ([⟨2, 4, 6, 8, "pascal"⟩], ⟨7, 0⟩) := by
    simp only [preprocessStore, BoundingBox.resize, List.getD, List.set]
    norm_num
  exact ⟨by norm_num, hEval,
    preprocessStore_frame [⟨1, 2, 3, 4, "pascal"⟩] ⟨7, 0⟩ "pascal" (1, 1) (2, 2)
      (by norm_num) _ _ hEval⟩

/-- C7 counterexample: the detection object built from a region by
MuRET2YOLO carries the region bounding-box reference itself; after
Object.preprocess at half scale the box the graph region owns holds
(5,5,45,95) instead of its load-time value (10,10,90,190), so the
pipeline does modify graph entities. -/
theorem graph_box_mutated_by_preprocess :
    createObjectToDetectFromRegion (Dictionary.ofList ["page", "staff"]) ⟨"staff", 0⟩
      = .ok ⟨1, 0⟩ ∧
    preprocessStore [⟨10, 10, 90, 190, "pascal"⟩] ⟨1, 0⟩ "yolo" (100, 200) (50, 100)
      = .ok ([⟨5, 5, 45, 95, "pascal"⟩, ⟨1/2, 1/2, 4/5, 9/10, "yolo"⟩], ⟨1, 1⟩) ∧
    ([⟨5, 5, 45, 95, "pascal"⟩, ⟨1/2, 1/2, 4/5, 9/10, "yolo"⟩] : List BoundingBox).getD 0
        defaultBox
      ≠ ([⟨10, 10, 90, 190, "pascal"⟩] : List BoundingBox).getD 0 defaultBox := by
  refine ⟨rfl, ?_, ?_⟩
  · norm_num [preprocessStore, BoundingBox.resize, BoundingBox.to, BoundingBox.to_yolo,
      round5, defaultBox]
    rw [if_neg (by decide : ¬ (("pascal" : String) = "yolo"))]
    rw [if_neg (by decide : ¬ (("pascal" : String) = "yolo"))]
  · norm_num [List.getD, BoundingBox.mk.injEq, defaultBox]

/-! ## Cache lemmas -/

theorem assocLookup_append {β : Type} (m : List (String × β)) (x k : String) (v : β) :
    assocLookup (m ++ [(k, v)]) x =
      match assocLookup m x with
      | some w => some w
      | none => if x = k then some v else none := by
  induction m with
  | nil => simp [assocLookup]
  | cons p rest ih =>
    obtain ⟨pk, pv⟩ := p
    by_cases hx : x = pk <;> simp [assocLookup, hx, ih]

/-- C8: the cache key is the fixed 13-character prefix of the sha256
hexdigest of the URL (64 hex characters); a cache hit performs zero
network fetches; a miss fetches exactly once and persists the content
under the key, after which a second acquisition of the same URL is a
hit with zero fetches. -/
theorem remote_image_cache (digestOf : String → String) (url folder : String) (fs : CacheFS)
    (hdig : (digestOf url).length = 64) :
    (getLocalFilename digestOf url).length = 13 ∧
    (∀ c : String,
      assocLookup fs.disk (folder ++ "/images" ++ "/" ++ getLocalFilename digestOf url)
        = some c →
      remoteImageInit digestOf (some folder) fs url = (fs, 0, .ok ())) ∧
    (∀ content : String,
      assocLookup fs.disk (folder ++ "/images" ++ "/" ++ getLocalFilename digestOf url)
        = none →
      fs.net url = some content →
      ∃ fs2 : CacheFS,
        remoteImageInit digestOf (some folder) fs url = (fs2, 1, .ok ()) ∧
        assocLookup fs2.disk (folder ++ "/images" ++ "/" ++ getLocalFilename digestOf url)
          = some content ∧
        remoteImageInit digestOf (some folder) fs2 url = (fs2, 0, .ok ())) := by
  refine ⟨?_, ?_, ?_⟩
  · show ((digestOf url).data.take 13).length = 13
    rw [List.length_take]
    have h64 : (digestOf url).data.length = 64 := hdig
    omega
  · intro c hc
    rw [remoteImageInit]
    rw [show folder ++ "/images" ++ "/" ++ getLocalFilename digestOf url
        = (folder ++ "/images") ++ "/" ++ getLocalFilename digestOf url from rfl] at hc
    rw [hc]
  · intro content hmiss hnet
    rw [show folder ++ "/images" ++ "/" ++ getLocalFilename digestOf url
        = (folder ++ "/images") ++ "/" ++ getLocalFilename digestOf url from rfl] at hmiss
    refine ⟨⟨fs.disk ++ [((folder ++ "/images") ++ "/" ++ getLocalFilename digestOf url,
        content)], fs.net⟩, ?_, ?_, ?_⟩
    · rw [remoteImageInit, hmiss, hnet]
    · rw [assocLookup_append, hmiss, if_pos rfl]
    · rw [remoteImageInit]
      show (match assocLookup (fs.disk ++ [((folder ++ "/images") ++ "/"
          ++ getLocalFilename digestOf url, content)])
            ((folder ++ "/images") ++ "/" ++ getLocalFilename digestOf url) with
        | some _ => _
        | none => _) = _
      rw [assocLookup_append, hmiss, if_pos rfl]

/-- Witness for C8 with a constant digest oracle and a one-image
network. -/
theorem remote_image_cache_witness :
    ((fun _ : String => "0123456789abcdef0123456789abcdef0123456789abcdef0123456789abcdef")
        "u").length = 64 ∧
    ((getLocalFilename
        (fun _ : String => "0123456789abcdef0123456789abcdef0123456789abcdef0123456789abcdef")
        "u").length = 13 ∧
    (∀ c : String,
      assocLookup (CacheFS.mk [] (fun _ => some "IMG")).disk
          ("c" ++ "/images" ++ "/" ++ getLocalFilename
            (fun _ : String =>
              "0123456789abcdef0123456789abcdef0123456789abcdef0123456789abcdef") "u")
        = some c →
      remoteImageInit
          (fun _ : String =>
            "0123456789abcdef0123456789abcdef0123456789abcdef0123456789abcdef")
          (some "c") (CacheFS.mk [] (fun _ => some "IMG")) "u"
        = (CacheFS.mk [] (fun _ => some "IMG"), 0, .ok ())) ∧
    (∀ content : String,
      assocLookup (CacheFS.mk [] (fun _ => some "IMG")).disk
          ("c" ++ "/images" ++ "/" ++ getLocalFilename
            (fun _ : String =>
              "0123456789abcdef0123456789abcdef0123456789abcdef0123456789abcdef") "u")
        = none →
      (CacheFS.mk [] (fun _ => some "IMG")).net "u" = some content →
      ∃ fs2 : CacheFS,
        remoteImageInit
            (fun _ : String =>
              "0123456789abcdef0123456789abcdef0123456789abcdef0123456789abcdef")
            (some "c") (CacheFS.mk [] (fun _ => some "IMG")) "u"
          = (fs2, 1, .ok ()) ∧
        assocLookup fs2.disk
            ("c" ++ "/images" ++ "/" ++ getLocalFilename
              (fun _ : String =>
                "0123456789abcdef0123456789abcdef0123456789abcdef0123456789abcdef") "u")
          = some content ∧
        remoteImageInit
            (fun _ : String =>
              "0123456789abcdef0123456789abcdef0123456789abcdef0123456789abcdef")
            (some "c") fs2 "u"
          = (fs2, 0, .ok ()))) :=
  ⟨by decide,
   remote_image_cache
     (fun _ : String => "0123456789abcdef0123456789abcdef0123456789abcdef0123456789abcdef")
     "u" "c" (CacheFS.mk [] (fun _ => some "IMG")) (by decide)⟩

/-- C6: Package construction fails with an IOError when the folder or
its dictionary.json is missing; fails with the MuRETException of
Dictionary.from_json (the configuration error) when a root key among
region_dictionary, agnostic_symbol_types, agnostic_positions_in_staff
is absent, with zero data files read at that point; and fails with the
empty-package MuRETException when the three dictionaries load but the
files subtree holds no JSON data file. -/
theorem package_init_failure_modes (fs : PkgFS) :
    (fs.folderExists = false →
      packageInit fs = (0, .error (.ioError "Folder does not exist"))) ∧
    (fs.folderExists = true → fs.dictionaryJsonExists = false →
      packageInit fs = (0, .error (.ioError "Dictionary file does not exist"))) ∧
    (fs.folderExists = true → fs.dictionaryJsonExists = true →
      (assocLookup fs.dictionaryJson "region_dictionary" = none ∨
       assocLookup fs.dictionaryJson "agnostic_symbol_types" = none ∨
       assocLookup fs.dictionaryJson "agnostic_positions_in_staff" = none) →
      ∃ k : String,
        packageInit fs = (0, .error (.muret ⟨"No root element named " ++ k⟩))) ∧
    (fs.folderExists = true → fs.dictionaryJsonExists = true →
      (assocLookup fs.dictionaryJson "region_dictionary").isSome = true →
      (assocLookup fs.dictionaryJson "agnostic_symbol_types").isSome = true →
      (assocLookup fs.dictionaryJson "agnostic_positions_in_staff").isSome = true →
      fs.filesFolderExists = true → fs.dataFiles = [] →
      packageInit fs = (0, .error (.muret ⟨"Empty MuRET training set package"⟩))) := by
  refine ⟨?_, ?_, ?_, ?_⟩
  · intro h1
    rw [packageInit, if_pos h1]
  · intro h1 h2
    rw [packageInit, if_neg (by simp [h1]), if_pos h2]
  · intro h1 h2 hmiss
    rcases hl1 : assocLookup fs.dictionaryJson "region_dictionary" with _ | ls1
    · exact ⟨"region_dictionary", by
        simp only [packageInit, Dictionary.from_json, h1, h2, hl1]
        simp⟩
    · rcases hl2 : assocLookup fs.dictionaryJson "agnostic_symbol_types" with _ | ls2
      · exact ⟨"agnostic_symbol_types", by
          simp only [packageInit, Dictionary.from_json, h1, h2, hl1, hl2]
          simp⟩
      · rcases hl3 : assocLookup fs.dictionaryJson "agnostic_positions_in_staff" with _ | ls3
        · exact ⟨"agnostic_positions_in_staff", by
            simp only [packageInit, Dictionary.from_json, h1, h2, hl1, hl2, hl3]
            simp⟩
        · rw [hl1, hl2, hl3] at hmiss
          rcases hmiss with h | h | h <;> cases h
  · intro h1 h2 hs1 hs2 hs3 h3 h4
    rcases hl1 : assocLookup fs.dictionaryJson "region_dictionary" with _ | ls1
    · rw [hl1] at hs1; cases hs1
    rcases hl2 : assocLookup fs.dictionaryJson "agnostic_symbol_types" with _ | ls2
    · rw [hl2] at hs2; cases hs2
    rcases hl3 : assocLookup fs.dictionaryJson "agnostic_positions_in_staff" with _ | ls3
    · rw [hl3] at hs3; cases hs3
    simp only [packageInit, Dictionary.from_json, h1, h2, h3, h4, hl1, hl2, hl3]
    simp

/-- Witness for C6 at a filesystem whose dictionary.json lacks the
agnostic_symbol_types root key. -/
theorem package_init_failure_modes_witness :
    ((PkgFS.mk true true [("region_dictionary", ["page"])] true []).folderExists = false →
      packageInit (PkgFS.mk true true [("region_dictionary", ["page"])] true [])
        = (0, .error (.ioError "Folder does not exist"))) ∧
    ((PkgFS.mk true true [("region_dictionary", ["page"])] true []).folderExists = true →
      (PkgFS.mk true true [("region_dictionary", ["page"])] true []).dictionaryJsonExists
        = false →
      packageInit (PkgFS.mk true true [("region_dictionary", ["page"])] true [])
        = (0, .error (.ioError "Dictionary file does not exist"))) ∧
    ((PkgFS.mk true true [("region_dictionary", ["page"])] true []).folderExists = true →
      (PkgFS.mk true true [("region_dictionary", ["page"])] true []).dictionaryJsonExists
        = true →
      (assocLookup [("region_dictionary", ["page"])] "region_dictionary" = none ∨
       assocLookup [("region_dictionary", ["page"])] "agnostic_symbol_types" = none ∨
       assocLookup [("region_dictionary", ["page"])] "agnostic_positions_in_staff" = none) →
      ∃ k : String,
        packageInit (PkgFS.mk true true [("region_dictionary", ["page"])] true [])
          = (0, .error (.muret ⟨"No root element named " ++ k⟩))) ∧
    ((PkgFS.mk true true [("region_dictionary", ["page"])] true []).folderExists = true →
      (PkgFS.mk true true [("region_dictionary", ["page"])] true []).dictionaryJsonExists
        = true →
      (assocLookup [("region_dictionary", ["page"])] "region_dictionary").isSome = true →
      (assocLookup [("region_dictionary", ["page"])] "agnostic_symbol_types").isSome = true →
      (assocLookup [("region_dictionary", ["page"])]
          "agnostic_positions_in_staff").isSome = true →
      (PkgFS.mk true true [("region_dictionary", ["page"])] true []).filesFolderExists
        = true →
      (PkgFS.mk true true [("region_dictionary", ["page"])] true []).dataFiles = [] →
      packageInit (PkgFS.mk true true [("region_dictionary", ["page"])] true [])
        = (0, .error (.muret ⟨"Empty MuRET training set package"⟩))) :=
  package_init_failure_modes (PkgFS.mk true true [("region_dictionary", ["page"])] true [])

/-- C4 (amended): on a label absent from its dictionary the loader
registers the label into the dictionary AND raises a MuRETException
carrying it, but the condition is not recoverable in this pipeline:
Package.__init__ does not catch the exception that future.result()
re-raises, so the whole package load fails on the first unknown label
instead of continuing. -/
theorem unknown_label_registers_and_aborts (d : Dicts) (r : RegionJson)
    (rest : List RegionJson) (h : d.region_types.contains r.type = false) :
    readRegions d (r :: rest)
      = (⟨d.region_types.add r.type, d.agnostic_symbol_types,
          d.agnostic_positions_in_staff⟩,
         .error (.unknownRegionType r.type)) ∧
    (∀ (pb : MuBox) (pgrest : List PageJson) (fid furl fname : String)
       (frest : List FileJson),
      readFiles d (⟨fid, furl, fname, some (⟨pb, some (r :: rest)⟩ :: pgrest)⟩ :: frest)
        = (⟨d.region_types.add r.type, d.agnostic_symbol_types,
            d.agnostic_positions_in_staff⟩,
           .error (.unknownRegionType r.type))) ∧
    (∀ fs : PkgFS, fs.folderExists = true → fs.dictionaryJsonExists = true →
      fs.filesFolderExists = true →
      Dictionary.from_json fs.dictionaryJson "region_dictionary" = .ok d.region_types →
      Dictionary.from_json fs.dictionaryJson "agnostic_symbol_types"
        = .ok d.agnostic_symbol_types →
      Dictionary.from_json fs.dictionaryJson "agnostic_positions_in_staff"
        = .ok d.agnostic_positions_in_staff →
      ∀ (pb : MuBox) (pgrest : List PageJson) (fid furl fname : String)
        (frest : List FileJson),
        fs.dataFiles = ⟨fid, furl, fname, some (⟨pb, some (r :: rest)⟩ :: pgrest)⟩ :: frest →
        (packageInit fs).2 = .error (.fileError (.unknownRegionType r.type))) := by
  have hreg : readRegions d (r :: rest)
      = (⟨d.region_types.add r.type, d.agnostic_symbol_types,
          d.agnostic_positions_in_staff⟩,
         .error (.unknownRegionType r.type)) := by
    simp only [readRegions]
    rw [if_pos h]
  have hfiles : ∀ (pb : MuBox) (pgrest : List PageJson) (fid furl fname : String)
      (frest : List FileJson),
      readFiles d (⟨fid, furl, fname, some (⟨pb, some (r :: rest)⟩ :: pgrest)⟩ :: frest)
        = (⟨d.region_types.add r.type, d.agnostic_symbol_types,
            d.agnostic_positions_in_staff⟩,
           .error (.unknownRegionType r.type)) := by
    intro pb pgrest fid furl fname frest
    simp only [readFiles, readFile, readPages, Option.getD, hreg]
  refine ⟨hreg, hfiles, ?_⟩
  intro fs h1 h2 h3 hj1 hj2 hj3 pb pgrest fid furl fname frest hdf
  simp only [packageInit, h1, h2, h3, hj1, hj2, hj3, hdf, hfiles,
    List.length_cons]
  simp [hfiles pb pgrest fid furl fname frest]

/-- Witness for C4 at a one-file package whose only region has the
unknown type staffX. -/
theorem unknown_label_registers_and_aborts_witness :
    (Dicts.mk (Dictionary.ofList ["page"]) (Dictionary.ofList ["note"])
        (Dictionary.ofList ["L1"])).region_types.contains "staffX" = false ∧
    (readRegions
        (Dicts.mk (Dictionary.ofList ["page"]) (Dictionary.ofList ["note"])
          (Dictionary.ofList ["L1"]))
        ([⟨"staffX", ⟨0, 0, 1, 1⟩, none, none⟩] : List RegionJson)
      = (⟨(Dictionary.ofList ["page"]).add "staffX", Dictionary.ofList ["note"],
          Dictionary.ofList ["L1"]⟩,
         .error (.unknownRegionType "staffX")) ∧
    (∀ (pb : MuBox) (pgrest : List PageJson) (fid furl fname : String)
       (frest : List FileJson),
      readFiles
          (Dicts.mk (Dictionary.ofList ["page"]) (Dictionary.ofList ["note"])
            (Dictionary.ofList ["L1"]))
          (⟨fid, furl, fname,
            some (⟨pb, some ([⟨"staffX", ⟨0, 0, 1, 1⟩, none, none⟩] : List RegionJson)⟩
              :: pgrest)⟩ :: frest)
        = (⟨(Dictionary.ofList ["page"]).add "staffX", Dictionary.ofList ["note"],
            Dictionary.ofList ["L1"]⟩,
           .error (.unknownRegionType "staffX"))) ∧
    (∀ fs : PkgFS, fs.folderExists = true → fs.dictionaryJsonExists = true →
      fs.filesFolderExists = true →
      Dictionary.from_json fs.dictionaryJson "region_dictionary"
        = .ok (Dictionary.ofList ["page"]) →
      Dictionary.from_json fs.dictionaryJson "agnostic_symbol_types"
        = .ok (Dictionary.ofList ["note"]) →
      Dictionary.from_json fs.dictionaryJson "agnostic_positions_in_staff"
        = .ok (Dictionary.ofList ["L1"]) →
      ∀ (pb : MuBox) (pgrest : List PageJson) (fid furl fname : String)
        (frest : List FileJson),
        fs.dataFiles = ⟨fid, furl, fname,
          some (⟨pb, some ([⟨"staffX", ⟨0, 0, 1, 1⟩, none, none⟩] : List RegionJson)⟩
            :: pgrest)⟩ :: frest →
        (packageInit fs).2 = .error (.fileError (.unknownRegionType "staffX")))) :=
  ⟨rfl,
   unknown_label_registers_and_aborts
     (Dicts.mk (Dictionary.ofList ["page"]) (Dictionary.ofList ["note"])
       (Dictionary.ofList ["L1"]))
     ⟨"staffX", ⟨0, 0, 1, 1⟩, none, none⟩ [] rfl⟩

/-- C4 counterexample: a package whose single file references the
unknown region type staffX; Package construction returns the escaped
unknown-label exception, so the load does not continue past the first
unknown label. -/
theorem package_load_aborts_on_unknown_label :
    (packageInit
      (PkgFS.mk true true
        [("region_dictionary", ["page"]), ("agnostic_symbol_types", ["note"]),
         ("agnostic_positions_in_staff", ["L1"])]
        true
        [⟨"i1", "u1", "f1",
          some [⟨⟨0, 0, 1, 1⟩, some [⟨"staffX", ⟨0, 0, 1, 1⟩, none, none⟩]⟩]⟩])).2
      = .error (.fileError (.unknownRegionType "staffX")) := rfl

/-- C9: evaluation of read_file at the failing input. A symbol record
carrying the approximate_x key, with both its labels present in the
dictionaries, makes read_file raise KeyError instead of loading the
symbol with that fallback position: the source initializes
muret_symbol_approximate_x to None and then indexes the record with
that variable instead of the key name approximate_x. -/
theorem approximate_x_key_error :
    (Dicts.mk (Dictionary.ofList ["page"]) (Dictionary.ofList ["note"])
        (Dictionary.ofList ["L1"])).agnostic_symbol_types.contains "note" = true ∧
    (Dicts.mk (Dictionary.ofList ["page"]) (Dictionary.ofList ["note"])
        (Dictionary.ofList ["L1"])).agnostic_positions_in_staff.contains "L1" = true ∧
    readFile
        (Dicts.mk (Dictionary.ofList ["page"]) (Dictionary.ofList ["note"])
          (Dictionary.ofList ["L1"]))
        ⟨"i1", "u1", "f1",
          some [⟨⟨0, 0, 1, 1⟩,
            some [⟨"page", ⟨0, 0, 1, 1⟩, none,
              some [⟨"note", "L1", none, some 5⟩]⟩]⟩]⟩
      = (Dicts.mk (Dictionary.ofList ["page"]) (Dictionary.ofList ["note"])
          (Dictionary.ofList ["L1"]), .error .keyError) :=
  ⟨rfl, rfl, rfl⟩

end Repertorium
